import Mathlib

/-!
Verification of the reconciliation-and-audit core of the access-list
management tool (`src/app.py`): IP set parser, address validator,
reconciliation engine, audit ledger and report renderer, embedded
shallowly as executable Lean definitions, with theorems checking the
specified properties against them.

Python strings are modelled as Lean `String` (a structure over
`List Char`); Python `set` as `Finset String`; the SQLite store as an
explicit `Ledger` value threaded through the handler; exceptions as
`Except`/`Option` results.
-/

/-! ### Python character-level primitives -/

/-- Characters for which Python `str.isspace()` holds; `str.strip()` with no
argument removes exactly these from both ends. -/
def isPySpace (c : Char) : Bool :=
  [' ', '\t', '\n', '\x0b', '\x0c', '\r',
   '\x1c', '\x1d', '\x1e', '\x1f', '\x85', '\xa0',
   ' ', ' ', ' ', ' ', ' ', ' ', ' ',
   ' ', ' ', ' ', ' ', ' ',
   ' ', ' ', ' ', ' ', '　'].contains c

/-- Drop the longest suffix of characters satisfying `p`. -/
def dropTrailing (p : Char → Bool) (l : List Char) : List Char :=
  (l.reverse.dropWhile p).reverse

/-- Strip `isPySpace` characters from the front and the back of a character
list: the model of Python `str.strip()`. -/
def stripList (l : List Char) : List Char :=
  dropTrailing isPySpace (l.dropWhile isPySpace)

/-- Python `str.strip()` on strings. -/
def pyStrip (s : String) : String :=
  String.mk (stripList s.data)

/-- Line-boundary characters of Python `str.splitlines()` (in addition,
`"\r\n"` is consumed as a single boundary). -/
def isLineBoundary (c : Char) : Bool :=
  ['\n', '\r', '\x0b', '\x0c', '\x1c', '\x1d', '\x1e', '\x85',
   ' ', ' '].contains c

/-- Worker for Python `str.splitlines()`: scans left to right, `acc` holds the
current line reversed; a trailing boundary does not open an empty final
line. -/
def splitlinesGo : List Char → List Char → List (List Char)
  | [], acc => if acc = [] then [] else [acc.reverse]
  | '\r' :: '\n' :: rest, acc => acc.reverse :: splitlinesGo rest []
  | c :: rest, acc =>
    if isLineBoundary c then acc.reverse :: splitlinesGo rest []
    else splitlinesGo rest (c :: acc)

/-- Python `content.splitlines()`. -/
def pySplitlines (s : String) : List String :=
  (splitlinesGo s.data []).map String.mk

/-- Fuel-driven worker for Python `str.split(sep)` with a non-empty literal
separator: splits at each non-overlapping occurrence, left to right.  Each
step consumes at least one character, so fuel `= length of the text` always
suffices. -/
def pySplitFuel (sep : List Char) : Nat → List Char → List Char → List (List Char)
  | 0, cs, acc => [acc.reverse ++ cs]
  | fuel + 1, cs, acc =>
    match cs with
    | [] => [acc.reverse]
    | c :: rest =>
      if sep.isPrefixOf (c :: rest) then
        acc.reverse :: pySplitFuel sep fuel ((c :: rest).drop sep.length) []
      else pySplitFuel sep fuel rest (c :: acc)

/-- Python `s.split(sep)` for a literal separator.  Python raises `ValueError`
on an empty separator; that case is unreachable in the application (the UI
offers only the four delimiters newline, comma, space, tab), and is mapped to
`[s]` here. -/
def pySplit (s sep : String) : List String :=
  if sep.data = [] then [s]
  else (pySplitFuel sep.data s.data.length s.data []).map String.mk

/-- The delimiter class of the regular expression `[,\n\r]+` used for the
revoke-input text (`re.split(r'[,\n\r]+', remove_input)` in `app.py`). -/
def isRegexDelim (c : Char) : Bool :=
  c = ',' ∨ c = '\n' ∨ c = '\r'

/-- Model of `re.split(r'[,\n\r]+', ·)` on character lists: a maximal run of
delimiter characters is a single split point; a leading or trailing run
contributes an empty token, exactly as `re.split` does. -/
def regexSplitList : List Char → List (List Char)
  | [] => [[]]
  | c :: rest =>
    let ts := regexSplitList rest
    if isRegexDelim c then
      match rest with
      | r :: _ => if isRegexDelim r then ts else [] :: ts
      | [] => [] :: ts
    else
      match ts with
      | t :: ts2 => (c :: t) :: ts2
      | [] => [[c]]

/-- `re.split(r'[,\n\r]+', s)` on strings. -/
def regexSplit (s : String) : List String :=
  (regexSplitList s.data).map String.mk

/-! ### Lexicographic string order (Python string comparison) -/

/-- Lexicographic comparison of character lists by code point: the order
Python uses to compare and sort strings. -/
def lexLe : List Char → List Char → Bool
  | [], _ => true
  | _ :: _, [] => false
  | a :: as, b :: bs =>
    if a.toNat < b.toNat then true
    else if b.toNat < a.toNat then false
    else lexLe as bs

/-- Python's `≤` on strings (code-point lexicographic). -/
def strLeb (a b : String) : Bool :=
  lexLe a.data b.data

/-- `strLeb` as a relation, for use with `List.insertionSort`. -/
def sLe (a b : String) : Prop :=
  strLeb a b = true

instance : DecidableRel sLe := fun _ _ => inferInstanceAs (Decidable (_ = true))

theorem charToNat_inj {a b : Char} (h : a.toNat = b.toNat) : a = b :=
  Char.eq_of_val_eq (UInt32.eq_of_toBitVec_eq (BitVec.eq_of_toNat_eq h))

theorem string_data_inj {a b : String} (h : a.data = b.data) : a = b := by
  cases a; cases b; exact congrArg String.mk h

theorem lexLe_total : ∀ a b, lexLe a b = true ∨ lexLe b a = true := by
  intro a
  induction a with
  | nil => intro b; left; simp [lexLe]
  | cons x xs ih =>
    intro b
    cases b with
    | nil => right; simp [lexLe]
    | cons y ys =>
      rcases Nat.lt_trichotomy x.toNat y.toNat with h | h | h
      · left; simp [lexLe, h]
      · have h1 : ¬ x.toNat < y.toNat := by omega
        have h2 : ¬ y.toNat < x.toNat := by omega
        simpa [lexLe, h1, h2] using ih ys
      · right; simp [lexLe, h]

theorem lexLe_trans :
    ∀ a b c, lexLe a b = true → lexLe b c = true → lexLe a c = true := by
  intro a
  induction a with
  | nil => intro b c _ _; simp [lexLe]
  | cons x xs ih =>
    intro b c hab hbc
    cases b with
    | nil => simp [lexLe] at hab
    | cons y ys =>
      cases c with
      | nil => simp [lexLe] at hbc
      | cons z zs =>
        by_cases hxy : x.toNat < y.toNat <;> by_cases hyz : y.toNat < z.toNat
        · simp [lexLe, show x.toNat < z.toNat by omega]
        · by_cases hzy : z.toNat < y.toNat
          · simp only [lexLe, if_neg hyz, if_pos hzy] at hbc
            exact absurd hbc (by simp)
          · have : x.toNat < z.toNat := by omega
            simp [lexLe, this]
        · by_cases hyx : y.toNat < x.toNat
          · simp only [lexLe, if_neg hxy, if_pos hyx] at hab
            exact absurd hab (by simp)
          · have : x.toNat < z.toNat := by omega
            simp [lexLe, this]
        · by_cases hyx : y.toNat < x.toNat
          · simp only [lexLe, if_neg hxy, if_pos hyx] at hab
            exact absurd hab (by simp)
          · by_cases hzy : z.toNat < y.toNat
            · simp only [lexLe, if_neg hyz, if_pos hzy] at hbc
              exact absurd hbc (by simp)
            · have h1 : ¬ x.toNat < z.toNat := by omega
              have h2 : ¬ z.toNat < x.toNat := by omega
              simp only [lexLe, if_neg hxy, if_neg hyx] at hab
              simp only [lexLe, if_neg hyz, if_neg hzy] at hbc
              simp only [lexLe, if_neg h1, if_neg h2]
              exact ih ys zs hab hbc

theorem lexLe_antisymm :
    ∀ a b, lexLe a b = true → lexLe b a = true → a = b := by
  intro a
  induction a with
  | nil =>
    intro b _ hba
    cases b with
    | nil => rfl
    | cons y ys => simp [lexLe] at hba
  | cons x xs ih =>
    intro b hab hba
    cases b with
    | nil => simp [lexLe] at hab
    | cons y ys =>
      rcases Nat.lt_trichotomy x.toNat y.toNat with h | h | h
      · simp only [lexLe, if_neg (show ¬ y.toNat < x.toNat by omega), if_pos h] at hba
        exact absurd hba (by simp)
      · have h1 : ¬ x.toNat < y.toNat := by omega
        have h2 : ¬ y.toNat < x.toNat := by omega
        simp only [lexLe, if_neg h1, if_neg h2] at hab hba
        rw [charToNat_inj h, ih ys hab hba]
      · simp only [lexLe, if_neg (show ¬ x.toNat < y.toNat by omega), if_pos h] at hab
        exact absurd hab (by simp)

instance : IsTotal String sLe :=
  ⟨fun a b => lexLe_total a.data b.data⟩

instance : IsTrans String sLe :=
  ⟨fun a b c hab hbc => lexLe_trans a.data b.data c.data hab hbc⟩

instance : IsAntisymm String sLe :=
  ⟨fun a b hab hba => string_data_inj (lexLe_antisymm a.data b.data hab hba)⟩

/-- Python `sorted(·)` on a set of strings: the unique `sLe`-sorted
enumeration of the set's elements. -/
def sortFinset (S : Finset String) : List String :=
  Quotient.liftOn S.1 (fun l => l.insertionSort sLe)
    (fun l1 l2 h => List.eq_of_perm_of_sorted
      (((List.perm_insertionSort sLe l1).trans h).trans
        (List.perm_insertionSort sLe l2).symm)
      (List.sorted_insertionSort sLe l1) (List.sorted_insertionSort sLe l2))

theorem mem_sortFinset {x : String} {S : Finset String} :
    x ∈ sortFinset S ↔ x ∈ S := by
  obtain ⟨m, nd⟩ := S
  revert nd
  induction m using Quotient.inductionOn with
  | h l =>
    intro nd
    show x ∈ l.insertionSort sLe ↔ _
    rw [List.mem_insertionSort]
    simp [Finset.mem_mk]

theorem sorted_sortFinset (S : Finset String) : List.Sorted sLe (sortFinset S) := by
  obtain ⟨m, nd⟩ := S
  revert nd
  induction m using Quotient.inductionOn with
  | h l => intro nd; exact List.sorted_insertionSort sLe l

theorem length_sortFinset (S : Finset String) : (sortFinset S).length = S.card := by
  obtain ⟨m, nd⟩ := S
  revert nd
  induction m using Quotient.inductionOn with
  | h l => intro nd; exact List.length_insertionSort sLe l

theorem nodup_sortFinset (S : Finset String) : (sortFinset S).Nodup := by
  obtain ⟨m, nd⟩ := S
  revert nd
  induction m using Quotient.inductionOn with
  | h l => intro nd; exact ((List.perm_insertionSort sLe l).nodup_iff).mpr nd

/-- Python `sep.join(·)` at the character level. -/
def joinSepData (sep : List Char) : List (List Char) → List Char
  | [] => []
  | [x] => x
  | x :: xs => x ++ sep ++ joinSepData sep xs

/-- Python `"\n".join(·)` on strings. -/
def pyJoinNL (l : List String) : String :=
  String.mk (joinSepData ['\n'] (l.map String.data))

/-- Python `s.replace(old, new)` for a non-empty `old`: replace every
non-overlapping occurrence, left to right — the same as splitting on `old`
and joining with `new`. -/
def pyReplace (s old new : String) : String :=
  String.mk (joinSepData new.data ((pySplit s old).map String.data))

/-! ### Address validator (`is_valid_ip`, app.py lines 145-151)

`is_valid_ip` calls `ipaddress.ip_address` and maps `ValueError` to `False`.
The `ipaddress` standard-library module is outside the repository, so its
accept/reject behaviour is modelled from the spec: a string is accepted
exactly when it is a syntactically well-formed IPv4 address in dotted-decimal
notation or a well-formed IPv6 address in colon-hex notation (including
compressed forms and an embedded trailing IPv4 part); hostnames, CIDR
blocks, empty strings, malformed octets and out-of-range values are
rejected.  Raising `ValueError` is modelled by an `Option` result. -/

def isAsciiDigit (c : Char) : Bool :=
  '0'.toNat ≤ c.toNat ∧ c.toNat ≤ '9'.toNat

def isHexDigitCh (c : Char) : Bool :=
  ('0'.toNat ≤ c.toNat ∧ c.toNat ≤ '9'.toNat) ∨
  ('a'.toNat ≤ c.toNat ∧ c.toNat ≤ 'f'.toNat) ∨
  ('A'.toNat ≤ c.toNat ∧ c.toNat ≤ 'F'.toNat)

/-- Modelled from the spec: one dotted-decimal IPv4 octet — 1 to 3 ASCII
digits, no leading zero, value at most 255. -/
def parseOctet (t : String) : Option Nat :=
  let cs := t.data
  if cs = [] then none
  else if ¬ cs.all isAsciiDigit then none
  else if cs.length > 3 then none
  else if cs.head? = some '0' ∧ cs.length > 1 then none
  else
    let v := cs.foldl (fun n c => n * 10 + (c.toNat - '0'.toNat)) 0
    if v > 255 then none else some v

/-- Modelled from the spec: a well-formed dotted-decimal IPv4 address —
exactly four valid octets separated by dots; returns its 32-bit value. -/
def parseIPv4 (s : String) : Option Nat :=
  match pySplit s "." with
  | [a, b, c, d] =>
    match parseOctet a, parseOctet b, parseOctet c, parseOctet d with
    | some va, some vb, some vc, some vd =>
      some (((va * 256 + vb) * 256 + vc) * 256 + vd)
    | _, _, _, _ => none
  | _ => none

/-- One colon-hex IPv6 group: 1 to 4 hex digits. -/
def validHextet (t : String) : Bool :=
  t.data ≠ [] ∧ t.data.length ≤ 4 ∧ t.data.all isHexDigitCh

/-- Lowercase hex rendering of a 16-bit group value (used when a trailing
dotted-decimal IPv4 part is rewritten into two colon-hex groups). -/
def hexRender (n : Nat) : String :=
  String.mk (Nat.toDigits 16 n)

/-- Modelled from the spec: a well-formed colon-hex IPv6 address.  The parts
between colons are checked as in standard notation: at most one `::`
(compressing one or more zero groups, also usable at either end), exactly
eight groups when no `::` is present, and an optional trailing
dotted-decimal IPv4 part standing for the last two groups. -/
def isValidIPv6 (s : String) : Bool :=
  if s.data = [] then false
  else
    let parts := pySplit s ":"
    if parts.length < 3 then false
    else
      let lastPart := parts.getLastD ""
      match
        (if lastPart.data.contains '.' then
          match parseIPv4 lastPart with
          | some v =>
            some (parts.dropLast ++ [hexRender (v / 65536), hexRender (v % 65536)])
          | none => none
        else some parts) with
      | none => false
      | some parts =>
        if parts.length > 9 then false
        else
          let n := parts.length
          let interiorEmpty :=
            (List.range n).filter fun i =>
              decide (0 < i) && decide (i < n - 1) && decide (parts.getD i "x" = "")
          match interiorEmpty with
          | [] =>
            decide (n = 8) && decide (parts.getD 0 "" ≠ "") &&
            decide (parts.getLastD "" ≠ "") && parts.all validHextet
          | [i] =>
            let partsHi := if parts.getD 0 "x" = "" then i - 1 else i
            let partsLo := if parts.getLastD "x" = "" then n - i - 2 else n - i - 1
            if parts.getD 0 "x" = "" ∧ partsHi ≠ 0 then false
            else if parts.getLastD "x" = "" ∧ partsLo ≠ 0 then false
            else if 8 - (partsHi + partsLo) < 1 then false
            else
              (parts.take partsHi).all validHextet &&
              (parts.drop (n - partsLo)).all validHextet
          | _ => false

/-- The validator of app.py: `ipaddress.ip_address` first tries IPv4, then
IPv6; a `ValueError` (a `none` here) from both means invalid. -/
def is_valid_ip (ip_string : String) : Bool :=
  (parseIPv4 ip_string).isSome || isValidIPv6 ip_string

/-! ### IP set parser and reconciliation (app.py lines 153-166) -/

/-- `get_ips_from_content(content, delimiter_value)` of app.py: line-split
when the delimiter is the newline character, literal split otherwise, then
`{ip.strip() for ip in raw_ips if ip.strip()}`. -/
def get_ips_from_content (content delimiter_value : String) : Finset String :=
  let raw_ips := if delimiter_value = "\n" then pySplitlines content
                 else pySplit content delimiter_value
  ((raw_ips.map pyStrip).filter (fun ip => ip ≠ "")).toFinset

/-- The retained set: `ips_to_keep = original_ips - set(remove_set)`
(app.py line 164). -/
def ips_to_keep (original_ips : Finset String) (remove_set : Finset String) : Finset String :=
  original_ips \ remove_set

/-- Serialization of a retained set back to text:
`"\n".join(sorted(ips_to_keep))` (app.py line 165). -/
def serializeSet (s : Finset String) : String :=
  pyJoinNL (sortFinset s)

/-- `update_content(content, remove_set, delimiter_value)` of app.py:
re-parse the content, drop the removal set, serialize sorted with
newlines. -/
def update_content (content : String) (remove_set : Finset String)
    (delimiter_value : String) : String :=
  let original_ips := get_ips_from_content content delimiter_value
  serializeSet (ips_to_keep original_ips remove_set)

/-- The matched set: `potential_removals =
original_ips_loaded.intersection(remove_list_clean)` (app.py line 268). -/
def potential_removals (original_ips_loaded remove_list_clean : Finset String) :
    Finset String :=
  original_ips_loaded ∩ remove_list_clean

/-! ### Report renderer (`generate_pdf_report`, app.py lines 168-213) -/

/-- The per-language string table `R` selected inside
`generate_pdf_report`. -/
structure RStrings where
  title : String
  date : String
  section_summary : String
  section_details : String
  total_initial : String
  total_removed : String
  total_final : String
  ip_list_header : String × String
  status_removed : String
  status_maintained : String
  conclusion : String
deriving DecidableEq, Repr

def R_es : RStrings where
  title := "Reporte de Auditoría de Acceso Restringido"
  date := "Fecha de Generación:"
  section_summary := "1. Resumen Ejecutivo de la Auditoría"
  section_details := "2. Detalle de IPs Revocadas"
  total_initial := "Total de IPs Iniciales:"
  total_removed := "Total de IPs Eliminadas:"
  total_final := "Total de IPs Finales:"
  ip_list_header := ("IP Revocada", "Estado")
  status_removed := "REVOCADA (Coincidencia)"
  status_maintained := "Mantenida"
  conclusion := "La herramienta ejecutó la revocación de acceso según lo planificado, garantizando el principio de mínimo privilegio y el cumplimiento normativo."

def R_en : RStrings where
  title := "Restricted Access Audit Report"
  date := "Generation Date:"
  section_summary := "1. Executive Audit Summary"
  section_details := "2. Revoked IPs Detail"
  total_initial := "Total Initial IPs:"
  total_removed := "Total Removed IPs:"
  total_final := "Total Final IPs:"
  ip_list_header := ("Revoked IP", "Status")
  status_removed := "REVOKED (Match Found)"
  status_maintained := "Maintained"
  conclusion := "The tool executed access revocation as planned, ensuring the principle of least privilege and regulatory compliance."

/-- The document content assembled by `generate_pdf_report` (title, date
line, summary table data, conclusion, detail table data); layout directives
(styles, column widths, page size) carry no data and are not modelled. -/
structure Report where
  title : String
  generated_at : String
  summary_data : List (String × Nat)
  conclusion : String
  ip_data : List (String × String)
deriving DecidableEq, Repr

/-- `generate_pdf_report(original_ips, potential_removals, updated_ips,
language)` of app.py.  The generation timestamp `datetime.datetime.now()`
is passed in as `now`.  The detail table gets one row per element of
`sorted(potential_removals)` tagged `status_removed`, and a single
`"N/A" / status_maintained` row is appended when `potential_removals` is
empty. -/
def generate_pdf_report (original_ips potential_removals updated_ips : Finset String)
    (language : String) (now : String) : Report :=
  let R := if language = "es" then R_es else R_en
  { title := R.title
    generated_at := now
    summary_data := [(R.total_initial, original_ips.card),
                     (R.total_removed, potential_removals.card),
                     (R.total_final, updated_ips.card)]
    conclusion := R.conclusion
    ip_data := R.ip_list_header ::
      ((sortFinset potential_removals).map (fun ip => (ip, R.status_removed)) ++
        (if potential_removals = ∅ then [("N/A", R.status_maintained)] else [])) }

/-! ### Audit ledger (app.py lines 22-69)

The SQLite table `audit_events` is modelled as a list of rows plus the
`AUTOINCREMENT` counter; `datetime.datetime.now().isoformat()` is passed in
from the ambient clock as `now`. -/

structure AuditEvent where
  id : Nat
  timestamp : String
  action : String
  user_id : String
  target_file : String
  ips_revoked : Nat
deriving DecidableEq, Repr

structure Ledger where
  nextId : Nat
  rows : List AuditEvent
deriving DecidableEq, Repr

/-- `init_db()`: a fresh `audit_events` table; SQLite `AUTOINCREMENT`
assigns ids from 1. -/
def init_db : Ledger :=
  ⟨1, []⟩

/-- `log_audit_event(user_id, target_file, ips_revoked)`: inserts one row
with the ledger-assigned id and timestamp and the fixed action literal. -/
def log_audit_event (L : Ledger) (now user_id target_file : String)
    (ips_revoked : Nat) : Ledger :=
  ⟨L.nextId + 1,
   L.rows ++ [⟨L.nextId, now, "Access Revocation Audit", user_id, target_file,
              ips_revoked⟩]⟩

/-- Ordering used by `load_audit_logs`: `ORDER BY timestamp DESC` compares
the ISO timestamp strings (SQLite binary text collation = code-point
order). -/
def tsDesc (a b : AuditEvent) : Prop :=
  sLe b.timestamp a.timestamp

instance : DecidableRel tsDesc := fun a b =>
  inferInstanceAs (Decidable (sLe b.timestamp a.timestamp))

instance : IsTotal AuditEvent tsDesc :=
  ⟨fun a b => lexLe_total b.timestamp.data a.timestamp.data⟩

instance : IsTrans AuditEvent tsDesc :=
  ⟨fun _ _ _ hab hbc => lexLe_trans _ _ _ hbc hab⟩

/-- A displayed history row: `load_audit_logs` drops the `id` column before
returning the dataframe. -/
structure DisplayRow where
  timestamp : String
  action : String
  user_id : String
  target_file : String
  ips_revoked : Nat
deriving DecidableEq, Repr

def dropId (e : AuditEvent) : DisplayRow :=
  ⟨e.timestamp, e.action, e.user_id, e.target_file, e.ips_revoked⟩

/-- `load_audit_logs()`: `SELECT * FROM audit_events ORDER BY timestamp
DESC`, then the `id` column is dropped. -/
def load_audit_logs (L : Ledger) : List DisplayRow :=
  (L.rows.insertionSort tsDesc).map dropId

/-- A sequence of `log_audit_event` calls (timestamp, user, target file,
removed count), applied in order. -/
def appendAll (L : Ledger) (calls : List (String × String × String × Nat)) : Ledger :=
  calls.foldl (fun acc c => log_audit_event acc c.1 c.2.1 c.2.2.1 c.2.2.2) L

/-! ### The confirm-and-update action (app.py lines 249-310)

The body of the `if remove_input:` block: tokenize the revoke text with
`re.split(r'[,\n\r]+', ·)`, normalize to a set, reject an empty set
(`st.error` + `st.stop`), reject invalid addresses (`st.error` + `st.stop`),
then on the button press compute the updated text, the report and the audit
row, store the artifacts in the session and set the success flag.  `st.stop`
and an uncaught exception both abort the script run before the artifacts are
stored, which is modelled by an `Except` result: `.ok` carries the stored
session artifacts and the new ledger, `.error` carries the abort cause.  A
failing SQLite insert inside `log_audit_event` (its exception is not caught
anywhere) is modelled by the `appendOk` flag. -/

inductive ActionError where
  | emptyRequest
  | invalidAddress (invalid : Finset String)
  | ledgerWrite
deriving DecidableEq

instance {ε α : Type} [DecidableEq ε] [DecidableEq α] : DecidableEq (Except ε α) :=
  fun x y =>
    match x, y with
    | .ok a, .ok b =>
      if h : a = b then isTrue (h ▸ rfl) else isFalse (fun he => h (Except.ok.inj he))
    | .error a, .error b =>
      if h : a = b then isTrue (h ▸ rfl) else isFalse (fun he => h (Except.error.inj he))
    | .ok _, .error _ => isFalse Except.noConfusion
    | .error _, .ok _ => isFalse Except.noConfusion

/-- `remove_list_clean`: tokens of `re.split(r'[,\n\r]+', remove_input)`,
stripped, empties discarded, as a set (app.py lines 252-253). -/
def remove_list_clean (remove_input : String) : Finset String :=
  ((regexSplit remove_input).map pyStrip).filter (fun item => item ≠ "") |>.toFinset

/-- `invalid_ips`: the entries of the cleaned removal set that fail
validation — the comprehension runs over the whole set, not only to the
first failure (app.py line 260). -/
def invalid_ips (remove_set : Finset String) : Finset String :=
  remove_set.filter (fun ip => ¬ is_valid_ip ip)

/-- The artifacts stored into `st.session_state` on success (app.py lines
304-306); the success flag itself is the `.ok`-ness of the result. -/
structure SessionArtifacts where
  updated_content_txt : String
  pdf_report : Report
  file_name_base : String
deriving DecidableEq, Repr

/-- The confirm-and-update action, app.py lines 249-310 (see the section
comment above). -/
def confirmUpdate (content remove_input delimiter_value file_name language : String)
    (ledger : Ledger) (now : String) (appendOk : Bool) :
    Except ActionError (SessionArtifacts × Ledger) :=
  let remove_set := remove_list_clean remove_input
  if remove_set = ∅ then .error .emptyRequest
  else if invalid_ips remove_set ≠ ∅ then .error (.invalidAddress (invalid_ips remove_set))
  else
    let updated_content := update_content content remove_set delimiter_value
    let original_ips := get_ips_from_content content delimiter_value
    let updated_ips := get_ips_from_content updated_content "\n"
    let matched := potential_removals original_ips remove_set
    let report := generate_pdf_report original_ips matched updated_ips language now
    if appendOk then
      .ok (⟨updated_content, report, pyReplace file_name ".txt" ""⟩,
           log_audit_event ledger now "admin_default" file_name matched.card)
    else .error .ledgerWrite

/-- The ledger state after the action: SQLite is touched only by the
`log_audit_event` call on the success path. -/
def ledgerAfter (r : Except ActionError (SessionArtifacts × Ledger))
    (L : Ledger) : Ledger :=
  match r with
  | .ok (_, L2) => L2
  | .error _ => L

/-- Whether the action delivered its artifacts: the download buttons render
only when the success flag was stored, which happens exactly on the success
path. -/
def deliveredOk (r : Except ActionError (SessionArtifacts × Ledger)) : Bool :=
  match r with
  | .ok _ => true
  | .error _ => false

/-- The report delivered by the action, when it succeeded. -/
def reportOf (r : Except ActionError (SessionArtifacts × Ledger)) : Option Report :=
  match r with
  | .ok (a, _) => some a.pdf_report
  | .error _ => none

/-! ### Helper lemmas: stripping -/

theorem dropWhile_head_false {p : Char → Bool} {l : List Char} {c : Char} {t : List Char}
    (h : l.dropWhile p = c :: t) : p c = false := by
  have hh := List.head?_dropWhile_not p l
  rw [h] at hh
  simpa using hh

theorem dropWhile_dropWhile {p : Char → Bool} (l : List Char) :
    (l.dropWhile p).dropWhile p = l.dropWhile p := by
  cases h : l.dropWhile p with
  | nil => simp
  | cons c t =>
    exact List.dropWhile_cons_of_neg (by simp [dropWhile_head_false h])

theorem dropTrailing_cons_of_neg {p : Char → Bool} {c : Char} (h : p c = false)
    (t : List Char) : dropTrailing p (c :: t) = c :: dropTrailing p t := by
  unfold dropTrailing
  rw [List.reverse_cons, List.dropWhile_append]
  cases h2 : t.reverse.dropWhile p with
  | nil => simp [List.dropWhile_cons_of_neg (show ¬ p c = true by simp [h])]
  | cons d ds => simp

theorem dropTrailing_idem {p : Char → Bool} (l : List Char) :
    dropTrailing p (dropTrailing p l) = dropTrailing p l := by
  unfold dropTrailing
  rw [List.reverse_reverse, dropWhile_dropWhile]

theorem stripList_idem (l : List Char) : stripList (stripList l) = stripList l := by
  unfold stripList
  cases h : l.dropWhile isPySpace with
  | nil => simp [dropTrailing]
  | cons c t =>
    have hc : isPySpace c = false := dropWhile_head_false h
    rw [dropTrailing_cons_of_neg hc,
        List.dropWhile_cons_of_neg (show ¬ isPySpace c = true by simp [hc]),
        dropTrailing_cons_of_neg hc, dropTrailing_idem]

theorem data_mk (l : List Char) : (String.mk l).data = l := rfl

theorem mk_data (s : String) : String.mk s.data = s := by cases s; rfl

theorem pyStrip_idem (s : String) : pyStrip (pyStrip s) = pyStrip s :=
  congrArg String.mk (stripList_idem s.data)

theorem string_ne_empty_iff {x : String} : x ≠ "" ↔ x.data ≠ [] := by
  constructor
  · intro h hd; exact h (string_data_inj hd)
  · intro h he; subst he; exact h rfl

/-! ### Helper lemmas: splitlines of a newline-join -/

theorem splitlinesGo_cons_nb {c : Char} (h : isLineBoundary c = false) (rest acc : List Char) :
    splitlinesGo (c :: rest) acc = splitlinesGo rest (c :: acc) := by
  have hc : c ≠ '\r' := by
    intro he; subst he; exact absurd h (by decide)
  rw [splitlinesGo.eq_3 acc c rest (fun _ h1 _ => absurd h1 hc)]
  simp [h]

theorem splitlinesGo_newline (rest acc : List Char) :
    splitlinesGo ('\n' :: rest) acc = acc.reverse :: splitlinesGo rest [] := rfl

theorem splitlinesGo_all_nb : ∀ (cs acc : List Char),
    cs.all (fun c => !isLineBoundary c) = true → (cs ≠ [] ∨ acc ≠ []) →
    splitlinesGo cs acc = [acc.reverse ++ cs] := by
  intro cs
  induction cs with
  | nil =>
    intro acc _ hne
    rcases hne with h | h
    · exact absurd rfl h
    · show (if acc = [] then [] else [acc.reverse]) = _
      rw [if_neg h]
      simp
  | cons c t ih =>
    intro acc hall _
    rw [List.all_cons, Bool.and_eq_true] at hall
    have h1 : isLineBoundary c = false := by
      have := hall.1; revert this; cases isLineBoundary c <;> simp
    rw [splitlinesGo_cons_nb h1, ih (c :: acc) hall.2 (Or.inr (by simp))]
    simp

theorem splitlinesGo_append_newline : ∀ (s rest acc : List Char),
    s.all (fun c => !isLineBoundary c) = true →
    splitlinesGo (s ++ '\n' :: rest) acc = (acc.reverse ++ s) :: splitlinesGo rest [] := by
  intro s
  induction s with
  | nil =>
    intro rest acc _
    rw [List.nil_append, splitlinesGo_newline]
    simp
  | cons c t ih =>
    intro rest acc hall
    rw [List.all_cons, Bool.and_eq_true] at hall
    have h1 : isLineBoundary c = false := by
      have := hall.1; revert this; cases isLineBoundary c <;> simp
    rw [List.cons_append, splitlinesGo_cons_nb h1, ih rest (c :: acc) hall.2]
    simp

theorem splitlines_joinNL : ∀ l : List (List Char),
    (∀ s ∈ l, s ≠ [] ∧ s.all (fun c => !isLineBoundary c) = true) →
    splitlinesGo (joinSepData ['\n'] l) [] = l := by
  intro l
  induction l with
  | nil => intro _; rfl
  | cons x xs ih =>
    intro hl
    cases xs with
    | nil =>
      have hx := hl x (by simp)
      show splitlinesGo x [] = [x]
      rw [splitlinesGo_all_nb x [] hx.2 (Or.inl hx.1)]
      simp
    | cons y ys =>
      have hx := hl x (by simp)
      have hj : joinSepData ['\n'] (x :: y :: ys) =
          x ++ '\n' :: joinSepData ['\n'] (y :: ys) := by
        show (x ++ ['\n']) ++ joinSepData ['\n'] (y :: ys) = _
        rw [List.append_assoc]
        rfl
      rw [hj, splitlinesGo_append_newline x _ [] hx.2,
          ih (fun s hs => hl s (by simp [hs]))]
      simp

/-- The round trip at the heart of the serializer: re-parsing the sorted
newline-join of a set with the newline delimiter recovers the set, provided
every element is non-empty, already stripped, and free of line-boundary
characters. -/
theorem parse_serialize (S : Finset String)
    (h : ∀ x ∈ S, x ≠ "" ∧ pyStrip x = x ∧ x.data.all (fun c => !isLineBoundary c) = true) :
    get_ips_from_content (serializeSet S) "\n" = S := by
  simp only [get_ips_from_content, serializeSet, pyJoinNL, if_pos, pySplitlines, data_mk]
  rw [splitlines_joinNL ((sortFinset S).map String.data) (by
    intro s hs
    obtain ⟨x, hx, rfl⟩ := List.mem_map.mp hs
    have hx2 := h x (mem_sortFinset.mp hx)
    exact ⟨string_ne_empty_iff.mp hx2.1, hx2.2.2⟩)]
  have hmkd : List.map String.mk (List.map String.data (sortFinset S)) = sortFinset S := by
    rw [List.map_map]
    calc List.map (String.mk ∘ String.data) (sortFinset S)
        = List.map id (sortFinset S) := List.map_congr_left (fun a _ => mk_data a)
      _ = sortFinset S := List.map_id _
  rw [hmkd]
  have hstrip : List.map pyStrip (sortFinset S) = sortFinset S := by
    calc List.map pyStrip (sortFinset S)
        = List.map id (sortFinset S) :=
          List.map_congr_left (fun a ha => (h a (mem_sortFinset.mp ha)).2.1)
      _ = sortFinset S := List.map_id _
  rw [hstrip]
  rw [List.filter_eq_self.mpr (fun a ha => decide_eq_true (h a (mem_sortFinset.mp ha)).1)]
  apply Finset.ext
  intro x
  rw [List.mem_toFinset, mem_sortFinset]

/-- Every member of a parsed address set is already stripped and
non-empty. -/
theorem get_ips_sound (content delimiter_value : String) :
    ∀ x ∈ get_ips_from_content content delimiter_value, pyStrip x = x ∧ x ≠ "" := by
  intro x hx
  simp only [get_ips_from_content, List.mem_toFinset, List.mem_filter, List.mem_map] at hx
  obtain ⟨⟨t, _, rfl⟩, hne⟩ := hx
  exact ⟨pyStrip_idem t, by simpa using hne⟩

/-! ### Helper lemmas: ledger -/

theorem appendAll_cons (L : Ledger) (c : String × String × String × Nat)
    (cs : List (String × String × String × Nat)) :
    appendAll L (c :: cs) = appendAll (log_audit_event L c.1 c.2.1 c.2.2.1 c.2.2.2) cs :=
  rfl

theorem appendAll_rows_length :
    ∀ (cs : List (String × String × String × Nat)) (L : Ledger),
      (appendAll L cs).rows.length = L.rows.length + cs.length := by
  intro cs
  induction cs with
  | nil => intro L; rfl
  | cons c cs ih =>
    intro L
    rw [appendAll_cons, ih]
    simp only [log_audit_event, List.length_append, List.length_cons, List.length_nil]
    omega

theorem appendAll_ids :
    ∀ (cs : List (String × String × String × Nat)) (L : Ledger),
      (∀ e ∈ L.rows, e.id < L.nextId) →
      List.Pairwise (fun a b : AuditEvent => a.id < b.id) L.rows →
      (∀ e ∈ (appendAll L cs).rows, e.id < (appendAll L cs).nextId) ∧
        List.Pairwise (fun a b : AuditEvent => a.id < b.id) (appendAll L cs).rows := by
  intro cs
  induction cs with
  | nil => intro L h1 h2; exact ⟨h1, h2⟩
  | cons c cs ih =>
    intro L h1 h2
    rw [appendAll_cons]
    apply ih
    · intro e he
      simp only [log_audit_event, List.mem_append, List.mem_singleton] at he
      rcases he with he | he
      · exact Nat.lt_succ_of_lt (h1 e he)
      · subst he; exact Nat.lt_succ_self _
    · simp only [log_audit_event]
      rw [List.pairwise_append]
      refine ⟨h2, List.pairwise_singleton _ _, ?_⟩
      intro a ha b hb
      rw [List.mem_singleton] at hb
      subst hb
      exact h1 a ha

/-! ### The claims -/

/-- C1: for every original address set and every validated, non-empty
requested set, the reconciliation computes `matched = original ∩ requested`
and `retained = original − matched`, and the two partition the original:
`retained ∪ matched = original` and `retained ∩ matched = ∅`. -/
theorem C1_reconciliation_partition (original requested : Finset String)
    (hne : requested.Nonempty)
    (hvalid : ∀ ip ∈ requested, is_valid_ip ip = true) :
    potential_removals original requested = original ∩ requested ∧
    ips_to_keep original requested = original \ potential_removals original requested ∧
    ips_to_keep original requested ∪ potential_removals original requested = original ∧
    ips_to_keep original requested ∩ potential_removals original requested = ∅ := by
  refine ⟨rfl, ?_, ?_, ?_⟩
  · unfold ips_to_keep potential_removals
    ext x
    simp only [Finset.mem_sdiff, Finset.mem_inter]
    tauto
  · exact Finset.sdiff_union_inter original requested
  · unfold ips_to_keep potential_removals
    ext x
    simp only [Finset.mem_inter, Finset.mem_sdiff, Finset.not_mem_empty, iff_false]
    tauto

/-- Witness for C1 at a concrete original and requested set. -/
theorem C1_witness :
    ips_to_keep {"1.1.1.1", "2.2.2.2"} {"2.2.2.2"} ∪
      potential_removals {"1.1.1.1", "2.2.2.2"} {"2.2.2.2"} =
      ({"1.1.1.1", "2.2.2.2"} : Finset String) :=
  (C1_reconciliation_partition {"1.1.1.1", "2.2.2.2"} {"2.2.2.2"}
    (by decide) (by decide)).2.2.1

/-- C2 counterexample: at a concrete valid input whose ledger append fails,
the action aborts with a ledger-write error, the artifacts are not
delivered, and the ledger is unchanged — the updated list and report are
not delivered to the user. -/
theorem C2_counterexample :
    confirmUpdate "1.1.1.1\n2.2.2.2" "2.2.2.2" "\n" "ips.txt" "en" init_db
        "2024-01-01T00:00:00" false = .error .ledgerWrite ∧
    deliveredOk (confirmUpdate "1.1.1.1\n2.2.2.2" "2.2.2.2" "\n" "ips.txt" "en" init_db
        "2024-01-01T00:00:00" false) = false ∧
    ledgerAfter (confirmUpdate "1.1.1.1\n2.2.2.2" "2.2.2.2" "\n" "ips.txt" "en" init_db
        "2024-01-01T00:00:00" false) init_db = init_db := by
  decide

/-- C2 (amended): a failed audit append blocks delivery — `log_audit_event`
runs before the session artifacts and the success flag are stored, and its
uncaught exception aborts the script run, so nothing is delivered and the
ledger is unchanged. -/
theorem C2_amended_failed_append_blocks_delivery
    (content remove_input delimiter_value file_name language : String)
    (ledger : Ledger) (now : String) :
    deliveredOk (confirmUpdate content remove_input delimiter_value file_name language
        ledger now false) = false ∧
    ledgerAfter (confirmUpdate content remove_input delimiter_value file_name language
        ledger now false) ledger = ledger := by
  unfold confirmUpdate
  by_cases h1 : remove_list_clean remove_input = ∅
  · simp [h1, deliveredOk, ledgerAfter]
  · by_cases h2 : invalid_ips (remove_list_clean remove_input) = ∅
    · simp [h1, h2, deliveredOk, ledgerAfter]
    · simp [h1, h2, deliveredOk, ledgerAfter]

/-- C3 counterexample: the singleton set whose element contains an interior
newline survives trimming (it is non-empty and stripped), but
serialize-then-parse splits it in two, so the round trip fails. -/
theorem C3_counterexample :
    pyStrip "a\nb" = "a\nb" ∧ ("a\nb" : String) ≠ "" ∧
    get_ips_from_content (serializeSet {"a\nb"}) "\n" = {"a", "b"} ∧
    get_ips_from_content (serializeSet {"a\nb"}) "\n" ≠ {"a\nb"} := by
  decide

/-- C3 (amended): for any address set whose elements are non-empty, already
stripped, and contain no line-boundary character, serializing (sort +
newline-join) and re-parsing with the newline delimiter yields the same
set. -/
theorem C3_amended_roundtrip (S : Finset String)
    (h : ∀ x ∈ S, x ≠ "" ∧ pyStrip x = x ∧ x.data.all (fun c => !isLineBoundary c) = true) :
    get_ips_from_content (serializeSet S) "\n" = S :=
  parse_serialize S h

/-- Witness for the amended C3 at a concrete two-element set. -/
theorem C3_witness :
    get_ips_from_content (serializeSet {"1.1.1.1", "3.3.3.3"}) "\n" =
      ({"1.1.1.1", "3.3.3.3"} : Finset String) :=
  C3_amended_roundtrip {"1.1.1.1", "3.3.3.3"} (by decide)

/-- C4: after `N` successful appends the history query returns exactly `N`
events ordered by timestamp descending (newest first), and the ledger
assigns each appended event an id strictly greater than the ids of all
earlier-appended events. -/
theorem C4_ledger_monotonicity (calls : List (String × String × String × Nat)) :
    (load_audit_logs (appendAll init_db calls)).length = calls.length ∧
    List.Sorted (fun a b : DisplayRow => sLe b.timestamp a.timestamp)
      (load_audit_logs (appendAll init_db calls)) ∧
    List.Pairwise (fun a b : AuditEvent => a.id < b.id) (appendAll init_db calls).rows ∧
    (appendAll init_db calls).rows.length = calls.length := by
  refine ⟨?_, ?_, ?_, ?_⟩
  · unfold load_audit_logs
    rw [List.length_map, List.length_insertionSort, appendAll_rows_length]
    simp [init_db]
  · unfold load_audit_logs
    exact (List.sorted_insertionSort tsDesc _).map dropId (fun a b hr => hr)
  · exact (appendAll_ids calls init_db (by intro e he; cases he) List.Pairwise.nil).2
  · rw [appendAll_rows_length]; simp [init_db]

/-- C5: if any entry of the cleaned revoke set fails validation, the action
fails with the invalid-address error carrying the full set of offending
entries (the filter runs over the whole set), the ledger is unchanged, and
nothing is delivered. -/
theorem C5_invalid_address_aborts
    (content remove_input delimiter_value file_name language : String)
    (ledger : Ledger) (now : String) (appendOk : Bool)
    (h1 : remove_list_clean remove_input ≠ ∅)
    (h2 : invalid_ips (remove_list_clean remove_input) ≠ ∅) :
    confirmUpdate content remove_input delimiter_value file_name language ledger now appendOk
      = .error (.invalidAddress (invalid_ips (remove_list_clean remove_input))) ∧
    ledgerAfter (confirmUpdate content remove_input delimiter_value file_name language
        ledger now appendOk) ledger = ledger ∧
    deliveredOk (confirmUpdate content remove_input delimiter_value file_name language
        ledger now appendOk) = false := by
  unfold confirmUpdate
  simp [h1, h2, ledgerAfter, deliveredOk]

/-- Witness for C5: a mixed valid/invalid request fails carrying exactly the
invalid entry. -/
theorem C5_witness :
    invalid_ips (remove_list_clean "abc,10.0.0.1") = {"abc"} ∧
    confirmUpdate "10.0.0.1" "abc,10.0.0.1" "\n" "f.txt" "en" init_db "t" true
      = .error (.invalidAddress {"abc"}) := by
  have h := (C5_invalid_address_aborts "10.0.0.1" "abc,10.0.0.1" "\n" "f.txt" "en"
    init_db "t" true (by decide) (by decide)).1
  have h2 : invalid_ips (remove_list_clean "abc,10.0.0.1") = {"abc"} := by decide
  rw [h2] at h
  exact ⟨h2, h⟩

/-- C6: a revoke request that is empty after normalization fails with the
empty-request error, causes no ledger change and delivers nothing. -/
theorem C6_empty_request_aborts
    (content remove_input delimiter_value file_name language : String)
    (ledger : Ledger) (now : String) (appendOk : Bool)
    (h : remove_list_clean remove_input = ∅) :
    confirmUpdate content remove_input delimiter_value file_name language ledger now appendOk
      = .error .emptyRequest ∧
    ledgerAfter (confirmUpdate content remove_input delimiter_value file_name language
        ledger now appendOk) ledger = ledger ∧
    deliveredOk (confirmUpdate content remove_input delimiter_value file_name language
        ledger now appendOk) = false := by
  unfold confirmUpdate
  simp [h, ledgerAfter, deliveredOk]

/-- Witness for C6: commas and whitespace only normalize to the empty set
and the action aborts with the empty-request error. -/
theorem C6_witness :
    remove_list_clean " , ,\n" = ∅ ∧
    confirmUpdate "1.1.1.1" " , ,\n" "\n" "f.txt" "es" init_db "t" true
      = .error .emptyRequest :=
  ⟨by decide,
   (C6_empty_request_aborts "1.1.1.1" " , ,\n" "\n" "f.txt" "es" init_db "t" true
     (by decide)).1⟩

/-- C7: the parser splits on line boundaries when the delimiter is the
newline character (carriage-return-prefixed endings included) and on
literal occurrences of the delimiter otherwise, trims every token,
discards tokens that become empty, and returns a set whose members are
exactly the non-empty trimmed tokens (duplicates collapse by the set
construction); every member is itself trimmed and non-empty. -/
theorem C7_parser_semantics (content delimiter_value : String) :
    (delimiter_value = "\n" →
      ∀ x, x ∈ get_ips_from_content content delimiter_value ↔
        x ≠ "" ∧ ∃ t ∈ pySplitlines content, pyStrip t = x) ∧
    (delimiter_value ≠ "\n" → delimiter_value ≠ "" →
      ∀ x, x ∈ get_ips_from_content content delimiter_value ↔
        x ≠ "" ∧ ∃ t ∈ pySplit content delimiter_value, pyStrip t = x) ∧
    (∀ x ∈ get_ips_from_content content delimiter_value, pyStrip x = x ∧ x ≠ "") := by
  refine ⟨?_, ?_, get_ips_sound content delimiter_value⟩
  · intro hd x
    subst hd
    simp only [get_ips_from_content, if_pos, List.mem_toFinset, List.mem_filter,
      List.mem_map, decide_eq_true_eq]
    constructor
    · rintro ⟨⟨t, ht, rfl⟩, hne⟩
      exact ⟨hne, t, ht, rfl⟩
    · rintro ⟨hne, t, ht, rfl⟩
      exact ⟨⟨t, ht, rfl⟩, hne⟩
  · intro hd _ x
    simp only [get_ips_from_content, if_neg hd, List.mem_toFinset, List.mem_filter,
      List.mem_map, decide_eq_true_eq]
    constructor
    · rintro ⟨⟨t, ht, rfl⟩, hne⟩
      exact ⟨hne, t, ht, rfl⟩
    · rintro ⟨hne, t, ht, rfl⟩
      exact ⟨⟨t, ht, rfl⟩, hne⟩

/-- Witness for C7: the token `" b "` of a text with a `\r\n` line ending is
trimmed into the member `"b"`. -/
theorem C7_witness :
    "b" ∈ get_ips_from_content "a\r\n b \nc" "\n" :=
  ((C7_parser_semantics "a\r\n b \nc" "\n").1 rfl "b").mpr
    ⟨by decide, " b ", by decide, by decide⟩

/-- C8 counterexample: with a comma-delimited upload whose token contains an
interior newline, the retained set has 2 elements but the report's third
summary count is 3 (it is computed from re-parsing the serialized retained
list, which splits that token), so the summary does not hold `retained`'s
cardinality. -/
theorem C8_counterexample :
    (ips_to_keep (get_ips_from_content "a\nb,c" ",") (remove_list_clean "1.2.3.4")).card = 2 ∧
    (reportOf (confirmUpdate "a\nb,c" "1.2.3.4" "," "f.txt" "en" init_db "t" true)).map
        Report.summary_data =
      some [("Total Initial IPs:", 2), ("Total Removed IPs:", 0), ("Total Final IPs:", 3)] := by
  decide

/-- C8 (amended): the delivered report is the rendering of the original set,
the matched set, and the re-parse of the serialized retained set — which
equals the retained set whenever no retained element contains a
line-boundary character; the summary then carries exactly the three counts
and the detail section lists the matched addresses sorted, each with the
fixed revoked label, with a single placeholder row when the matched set is
empty. -/
theorem C8_report_content
    (content remove_input delimiter_value file_name language : String)
    (ledger : Ledger) (now : String)
    (h1 : remove_list_clean remove_input ≠ ∅)
    (h2 : invalid_ips (remove_list_clean remove_input) = ∅)
    (h3 : ∀ x ∈ ips_to_keep (get_ips_from_content content delimiter_value)
            (remove_list_clean remove_input),
          x.data.all (fun c => !isLineBoundary c) = true) :
    reportOf (confirmUpdate content remove_input delimiter_value file_name language
        ledger now true)
      = some (generate_pdf_report (get_ips_from_content content delimiter_value)
          (potential_removals (get_ips_from_content content delimiter_value)
            (remove_list_clean remove_input))
          (ips_to_keep (get_ips_from_content content delimiter_value)
            (remove_list_clean remove_input))
          language now) ∧
    (∀ original matched updated : Finset String,
      (generate_pdf_report original matched updated language now).summary_data
        = [((if language = "es" then R_es else R_en).total_initial, original.card),
           ((if language = "es" then R_es else R_en).total_removed, matched.card),
           ((if language = "es" then R_es else R_en).total_final, updated.card)] ∧
      (generate_pdf_report original matched updated language now).ip_data
        = (if language = "es" then R_es else R_en).ip_list_header ::
            ((sortFinset matched).map
              (fun ip => (ip, (if language = "es" then R_es else R_en).status_removed)) ++
             (if matched = ∅ then
               [("N/A", (if language = "es" then R_es else R_en).status_maintained)]
              else [])) ∧
      List.Sorted sLe (sortFinset matched)) := by
  constructor
  · have hupd : get_ips_from_content
        (update_content content (remove_list_clean remove_input) delimiter_value) "\n"
        = ips_to_keep (get_ips_from_content content delimiter_value)
            (remove_list_clean remove_input) := by
      unfold update_content
      apply parse_serialize
      intro x hx
      have hmem : x ∈ get_ips_from_content content delimiter_value :=
        (Finset.mem_sdiff.mp hx).1
      have hsnd := get_ips_sound content delimiter_value x hmem
      exact ⟨hsnd.2, hsnd.1, h3 x hx⟩
    unfold confirmUpdate
    simp only [if_neg h1, ne_eq, h2, not_true_eq_false, if_neg, ite_true, ite_false]
    rw [hupd]
    rfl
  · intro original matched updated
    refine ⟨rfl, rfl, sorted_sortFinset matched⟩

/-- Witness for the amended C8 at the spec's end-to-end scenario. -/
theorem C8_witness :
    reportOf (confirmUpdate "1.1.1.1\n2.2.2.2\n3.3.3.3" "2.2.2.2,9.9.9.9" "\n"
        "ips.txt" "en" init_db "t" true)
      = some (generate_pdf_report
          (get_ips_from_content "1.1.1.1\n2.2.2.2\n3.3.3.3" "\n")
          (potential_removals (get_ips_from_content "1.1.1.1\n2.2.2.2\n3.3.3.3" "\n")
            (remove_list_clean "2.2.2.2,9.9.9.9"))
          (ips_to_keep (get_ips_from_content "1.1.1.1\n2.2.2.2\n3.3.3.3" "\n")
            (remove_list_clean "2.2.2.2,9.9.9.9"))
          "en" "t") :=
  (C8_report_content "1.1.1.1\n2.2.2.2\n3.3.3.3" "2.2.2.2,9.9.9.9" "\n" "ips.txt" "en"
    init_db "t" (by decide) (by decide) (by decide)).1

/-- C9: the validator is a total boolean function (the parser's failure,
Python's `ValueError`, is caught and mapped to `false`), accepting
well-formed IPv4/IPv6 strings and rejecting hostnames, CIDR blocks, empty
strings, malformed octets and out-of-range values. -/
theorem C9_validator_boolean :
    (∀ s : String, is_valid_ip s = ((parseIPv4 s).isSome || isValidIPv6 s)) ∧
    is_valid_ip "192.168.1.10" = true ∧
    is_valid_ip "255.255.255.255" = true ∧
    is_valid_ip "::1" = true ∧
    is_valid_ip "2001:db8::8a2e:370:7334" = true ∧
    is_valid_ip "::ffff:192.168.1.1" = true ∧
    is_valid_ip "example.com" = false ∧
    is_valid_ip "10.0.0.0/8" = false ∧
    is_valid_ip "" = false ∧
    is_valid_ip "1.2.3" = false ∧
    is_valid_ip "1.2.3.04" = false ∧
    is_valid_ip "256.1.1.1" = false ∧
    is_valid_ip "1:2:3:4:5:6:7:8:9" = false ∧
    is_valid_ip "1::2::3" = false :=
  ⟨fun _ => rfl, by decide, by decide, by decide, by decide, by decide, by decide,
   by decide, by decide, by decide, by decide, by decide, by decide, by decide⟩

/-- C10: the revoke text is always tokenized by the fixed regular expression
class (commas, carriage returns, line feeds) — a space does not split it
even when space is the selected file delimiter — and the selected delimiter
influences the action only through the parse of the uploaded content. -/
theorem C10_revoke_tokenization_fixed
    (content remove_input d d2 file_name language : String)
    (ledger : Ledger) (now : String) (appendOk : Bool)
    (hd : get_ips_from_content content d = get_ips_from_content content d2) :
    confirmUpdate content remove_input d file_name language ledger now appendOk
      = confirmUpdate content remove_input d2 file_name language ledger now appendOk ∧
    remove_list_clean "1.1.1.1, 2.2.2.2\n3.3.3.3\r\n4.4.4.4"
      = {"1.1.1.1", "2.2.2.2", "3.3.3.3", "4.4.4.4"} ∧
    remove_list_clean "1.1.1.1 2.2.2.2" = {"1.1.1.1 2.2.2.2"} := by
  refine ⟨?_, by decide, by decide⟩
  unfold confirmUpdate update_content
  rw [hd]

/-- Witness for C10: newline- and comma-delimited parses of a one-entry file
agree, and then the whole action agrees. -/
theorem C10_witness :
    confirmUpdate "1.1.1.1" "1.1.1.1" "\n" "f.txt" "en" init_db "t" true
      = confirmUpdate "1.1.1.1" "1.1.1.1" "," "f.txt" "en" init_db "t" true :=
  (C10_revoke_tokenization_fixed "1.1.1.1" "1.1.1.1" "\n" "," "f.txt" "en" init_db "t"
    true (by decide)).1

/-! ### Concrete evaluations checking the embedding against the observable
behaviour of the Python primitives (`str.strip`, `str.splitlines`,
`str.split`, `re.split`, `sorted`, `"\n".join`, `ipaddress.ip_address`). -/

example : get_ips_from_content "a\r\n b \nb" "\n" = {"a", "b"} := by decide
example : get_ips_from_content "a\nb,c" "," = {"a\nb", "c"} := by decide
example : update_content "3.3.3.3\n1.1.1.1\n2.2.2.2" {"2.2.2.2"} "\n" = "1.1.1.1\n3.3.3.3" := by decide
example : remove_list_clean " 2.2.2.2 ,9.9.9.9\n" = {"2.2.2.2", "9.9.9.9"} := by decide
example : remove_list_clean ",,," = ∅ := by decide
example :
    confirmUpdate "1.1.1.1\n2.2.2.2\n3.3.3.3" "2.2.2.2,9.9.9.9" "\n" "ips.txt" "en"
      init_db "2024-01-01T00:00:00" true =
    .ok (⟨"1.1.1.1\n3.3.3.3",
          ⟨"Restricted Access Audit Report", "2024-01-01T00:00:00",
           [("Total Initial IPs:", 3), ("Total Removed IPs:", 1), ("Total Final IPs:", 2)],
           "The tool executed access revocation as planned, ensuring the principle of least privilege and regulatory compliance.",
           [("Revoked IP", "Status"), ("2.2.2.2", "REVOKED (Match Found)")]⟩,
          "ips"⟩,
         ⟨2, [⟨1, "2024-01-01T00:00:00", "Access Revocation Audit", "admin_default", "ips.txt", 1⟩]⟩) := by
  decide
example : sortFinset {"b", "a\nb", "a"} = ["a", "a\nb", "b"] := by decide
example : pyJoinNL ["a", "b"] = "a\nb" := by decide
example : pyJoinNL [] = "" := by decide
example : is_valid_ip "192.168.1.10" = true := by decide
example : is_valid_ip "255.255.255.255" = true := by decide
example : is_valid_ip "::1" = true := by decide
example : is_valid_ip "::" = true := by decide
example : is_valid_ip "2001:db8::8a2e:370:7334" = true := by decide
example : is_valid_ip "1:2:3:4:5:6:7:8" = true := by decide
example : is_valid_ip "::ffff:192.168.1.1" = true := by decide
example : is_valid_ip "fe80::" = true := by decide
example : is_valid_ip "example.com" = false := by decide
example : is_valid_ip "10.0.0.0/8" = false := by decide
example : is_valid_ip "" = false := by decide
example : is_valid_ip "1.2.3" = false := by decide
example : is_valid_ip "1.2.3.4.5" = false := by decide
example : is_valid_ip "256.1.1.1" = false := by decide
example : is_valid_ip "01.2.3.4" = false := by decide
example : is_valid_ip "1.2.3.04" = false := by decide
example : is_valid_ip "1:2:3:4:5:6:7:8:9" = false := by decide
example : is_valid_ip ":::" = false := by decide
example : is_valid_ip "1::2::3" = false := by decide
example : is_valid_ip ":1:2:3:4:5:6:7" = false := by decide
example : is_valid_ip "1:2:3:4:5:6:7:" = false := by decide
example : is_valid_ip "12345::" = false := by decide
example : is_valid_ip "1.2.3.4 " = false := by decide
example : is_valid_ip "abc" = false := by decide
example : is_valid_ip "9.9.9.9" = true := by decide
example : pyStrip "  a b \t" = "a b" := by decide
example : pySplitlines "a\r\nb\nc\r" = ["a", "b", "c"] := by decide
example : pySplitlines "" = [] := by decide
example : pySplitlines "\n\n" = ["", ""] := by decide
example : pySplit "a,b,,c" "," = ["a", "b", "", "c"] := by decide
example : pySplit "" "," = [""] := by decide
example : regexSplit "a,,b\n\rc," = ["a", "b", "c", ""] := by decide
example : regexSplit "" = [""] := by decide
example : strLeb "abc" "abd" = true := by decide
example : strLeb "b" "a\nb" = false := by decide
